import Mathlib

/-!
Verification of the kas-wgpu draw-pipe subsystem: the rounded-shape
tessellator (`FlatRound`, from `kas-wgpu/src/draw/flat_round.rs`) and the
draw-pipe orchestrator (`DrawPipe`, from `kas-wgpu/src/draw/draw_pipe.rs`).

Modelling conventions:
* `f32` values are modelled exactly by `ℚ`; the IEEE square root used on the
  non-degenerate line path is modelled by `Rat.sqrt` (no verified property
  depends on the value it returns, only on the shape of the vertex list).
  Division by zero yields `0` in `ℚ` where IEEE would yield an infinity;
  again no verified property inspects such a value.
* `i32`/`u32` coordinates are modelled by `ℤ`/`ℕ`.
* GPU-side objects (devices, buffers, shader modules, render-pass handles)
  are not part of the state; the orchestrator's `render` instead produces an
  explicit trace of the pass/draw commands it records.
-/

namespace KasDraw

/-- Coord from kas::geom: a pair of i32 pixel coordinates, modelled as ℤ × ℤ. -/
abbrev Coord := ℤ × ℤ

/-- Size from kas::geom: a pair of u32 pixel extents, modelled as ℕ × ℕ. -/
abbrev Size := ℕ × ℕ

/-- Modelled from the spec: `Coord::uniform(x)` (kas::geom, not under src/)
replicates one scalar into both components. -/
def coordUniform (x : ℤ) : Coord := (x, x)

/-- Modelled from the spec: `Size::uniform(x)` (kas::geom, not under src/)
replicates one scalar into both components. -/
def sizeUniform (x : ℕ) : Size := (x, x)

/-- Rect from kas::geom: an axis-aligned rectangle given by position and size. -/
structure Rect where
  pos : Coord
  size : Size
deriving DecidableEq, Repr

/-- Colour from kas::draw (not under src/): modelled from the spec as an opaque
4-channel colour owned by the theme layer; only its r, g, b channels are read
by the draw pipes (see the From impl in draw/mod.rs). -/
structure Colour where
  r : ℚ
  g : ℚ
  b : ℚ
  a : ℚ
deriving DecidableEq, Repr

/-- Rgb from draw/mod.rs: 3-part colour data. -/
structure Rgb where
  r : ℚ
  g : ℚ
  b : ℚ
deriving DecidableEq, Repr

/-- From<Colour> for Rgb (draw/mod.rs lines 39-47): drops the alpha channel. -/
def Colour.toRgb (c : Colour) : Rgb := ⟨c.r, c.g, c.b⟩

/-- Vec2 from draw/vector.rs (the module itself is not under src/): 2-D
floating-point vector, modelled from the spec (component-wise add/subtract,
scalar and vector operands). -/
structure Vec2 where
  x : ℚ
  y : ℚ
deriving DecidableEq, Repr

instance : Add Vec2 := ⟨fun a b => ⟨a.x + b.x, a.y + b.y⟩⟩
instance : Sub Vec2 := ⟨fun a b => ⟨a.x - b.x, a.y - b.y⟩⟩
instance : Neg Vec2 := ⟨fun a => ⟨-a.x, -a.y⟩⟩
instance : HMul Vec2 ℚ Vec2 := ⟨fun a k => ⟨a.x * k, a.y * k⟩⟩
instance : HDiv Vec2 ℚ Vec2 := ⟨fun a k => ⟨a.x / k, a.y / k⟩⟩
instance : HDiv Vec2 Vec2 Vec2 := ⟨fun a b => ⟨a.x / b.x, a.y / b.y⟩⟩

/-- Modelled from the spec: `Vec2::splat` replicates one scalar. -/
def Vec2.splat (k : ℚ) : Vec2 := ⟨k, k⟩

/-- Modelled from the spec: the scalar sign as used by `Vec2::sign`
(f32 copysign semantics: the sign of 0 is +1). -/
def signQ (q : ℚ) : ℚ := if q < 0 then -1 else 1

/-- Modelled from the spec: `Vec2::sign`, the component-wise sign
("normal derived from the sign of (corner − midpoint)", spec §4.2). -/
def Vec2.sign (a : Vec2) : Vec2 := ⟨signQ a.x, signQ a.y⟩

/-- Modelled from the spec: `Vec2::lt`, true when both components are
strictly less ("if rect has non-positive width or height, emits nothing",
spec §4.2). -/
def Vec2.lt (a b : Vec2) : Prop := a.x < b.x ∧ a.y < b.y

instance (a b : Vec2) : Decidable (Vec2.lt a b) := instDecidableAnd

/-- Modelled from the spec: `Vec2::le`, true when both components are
less or equal (used by `rounded_frame`'s containment sanitation, spec §4.2). -/
def Vec2.le (a b : Vec2) : Prop := a.x ≤ b.x ∧ a.y ≤ b.y

instance (a b : Vec2) : Decidable (Vec2.le a b) := instDecidableAnd

/-- Conversion of a Coord (i32 pair) into a Vec2, exact in the model. -/
def Vec2.ofCoord (c : Coord) : Vec2 := ⟨(c.1 : ℚ), (c.2 : ℚ)⟩

/-- Conversion of a Size (u32 pair) into a Vec2, exact in the model. -/
def Vec2.ofSize (s : Size) : Vec2 := ⟨(s.1 : ℚ), (s.2 : ℚ)⟩

/-- Truncation toward zero, the rounding used by Rust numeric casts. -/
def ratTrunc (q : ℚ) : ℤ := if q < 0 then ⌈q⌉ else ⌊q⌋

/-- Rust `as i32` cast from f32: truncate toward zero, saturating. -/
def f2i (q : ℚ) : ℤ := max (-(2 ^ 31)) (min (2 ^ 31 - 1) (ratTrunc q))

/-- Rust `as u32` cast from f32: truncate toward zero, saturating at 0. -/
def f2u (q : ℚ) : ℕ := min (2 ^ 32 - 1) (ratTrunc q).toNat

/-- OFFSET constant from flat_round.rs line 17: sub-pixel anti-aliasing
offset, 1/8 of a pixel. -/
def OFFSET : ℚ := 1 / 8

/-- The clamp `inner_radius.max(0.0).min(1.0)` from flat_round.rs
lines 241 and 301. -/
def clampUnit (q : ℚ) : ℚ := min (max q 0) 1

/-- Vertex from flat_round.rs line 21:
`Vertex(Vec2, Rgb, f32, Vec2, Vec2)` — position, colour, inner-radius
fraction, direction normal, anti-alias offset. -/
structure Vertex where
  pos : Vec2
  col : Rgb
  inner : ℚ
  dir : Vec2
  off : Vec2
deriving DecidableEq, Repr

/-- FlatRound pipeline state (flat_round.rs line 24): only the CPU-side
queued geometry `passes` is modelled; bind group, scale buffer and render
pipeline are GPU objects. -/
structure FlatRound where
  passes : List (List Vertex)
deriving DecidableEq, Repr

namespace FlatRound

/-- add_vertices (flat_round.rs lines 374-381): grow the pass list to
`pass + 8` slots when needed, then extend pass `pass`'s queue. -/
def add_vertices (s : FlatRound) (pass : ℕ) (slice : List Vertex) : FlatRound :=
  let ps := if s.passes.length ≤ pass then
      s.passes ++ List.replicate (pass + 8 - s.passes.length) []
    else s.passes
  ⟨ps.set pass (ps.getD pass [] ++ slice)⟩

/-- render (flat_round.rs lines 162-178): early return when `pass` is out of
range; otherwise draw the queued vertices and clear that queue.  Only the
state effect is modelled (the draw call itself targets the GPU). -/
def render (s : FlatRound) (pass : ℕ) : FlatRound :=
  if s.passes.length ≤ pass then s else ⟨s.passes.set pass []⟩

/-- The ten triangles of the non-degenerate line body
(flat_round.rs lines 190-228). -/
def lineVertices (q1 q2 : Vec2) (radius : ℚ) (col : Rgb) : List Vertex :=
  let vx := q2 - q1
  let vx := vx * radius / Rat.sqrt (vx.x * vx.x + vx.y * vx.y)
  let vy : Vec2 := ⟨-vx.y, vx.x⟩
  let n0 := Vec2.splat 0
  let nb := (vx + vy).sign
  let na := -nb
  let p := Vec2.splat (OFFSET / radius)
  let ma1 : Vertex := ⟨q1 - vy, col, 0, ⟨0, na.y⟩, p⟩
  let mb1 : Vertex := ⟨q1 + vy, col, 0, ⟨0, nb.y⟩, p⟩
  let aa1 : Vertex := ⟨ma1.pos - vx, col, 0, ⟨na.x, na.y⟩, p⟩
  let ab1 : Vertex := ⟨mb1.pos - vx, col, 0, ⟨na.x, nb.y⟩, p⟩
  let ma2 : Vertex := ⟨q2 - vy, col, 0, ⟨0, na.y⟩, p⟩
  let mb2 : Vertex := ⟨q2 + vy, col, 0, ⟨0, nb.y⟩, p⟩
  let ba2 : Vertex := ⟨ma2.pos + vx, col, 0, ⟨nb.x, na.y⟩, p⟩
  let bb2 : Vertex := ⟨mb2.pos + vx, col, 0, ⟨nb.x, nb.y⟩, p⟩
  let v1 : Vertex := ⟨q1, col, 0, n0, p⟩
  let v2 : Vertex := ⟨q2, col, 0, n0, p⟩
  [ab1, v1, mb1,
   aa1, v1, ab1,
   ma1, v1, aa1,
   mb1, v1, mb2,
   mb2, v1, v2,
   mb2, v2, bb2,
   bb2, v2, ba2,
   ba2, v2, ma2,
   ma2, v2, v1,
   v1, ma1, ma2]

/-- The four-triangle fan of circle (flat_round.rs lines 243-270),
parameterised by the rect's corners, the already-clamped inner radius and
the converted colour. -/
def circleVertices (aa bb : Vec2) (inner : ℚ) (col : Rgb) : List Vertex :=
  let ab : Vec2 := ⟨aa.x, bb.y⟩
  let ba : Vec2 := ⟨bb.x, aa.y⟩
  let mid := (aa + bb) * (1 / 2 : ℚ)
  let n0 := Vec2.splat 0
  let nb := (bb - aa).sign
  let na := -nb
  let nab : Vec2 := ⟨na.x, nb.y⟩
  let nba : Vec2 := ⟨nb.x, na.y⟩
  let p := nb / (bb - mid) * OFFSET
  let vaa : Vertex := ⟨aa, col, inner, na, p⟩
  let vab : Vertex := ⟨ab, col, inner, nab, p⟩
  let vba : Vertex := ⟨ba, col, inner, nba, p⟩
  let vbb : Vertex := ⟨bb, col, inner, nb, p⟩
  let vmid : Vertex := ⟨mid, col, inner, n0, p⟩
  [vba, vmid, vaa,
   vbb, vmid, vba,
   vab, vmid, vbb,
   vaa, vmid, vab]

/-- circle (flat_round.rs lines 232-271): draws a disc or annulus inscribed
in `rect`; nothing is drawn for a zero or negative size. -/
def circle (s : FlatRound) (pass : ℕ) (rect : Rect) (inner_radius : ℚ)
    (col : Colour) : FlatRound :=
  let aa := Vec2.ofCoord rect.pos
  let bb := aa + Vec2.ofSize rect.size
  if ¬ aa.lt bb then s
  else s.add_vertices pass (circleVertices aa bb (clampUnit inner_radius) col.toRgb)

/-- line (flat_round.rs lines 180-229): a capsule of half-width `radius`;
the degenerate case `p1 == p2` delegates to `circle` on the bounding square
built with Rust's saturating float-to-int casts. -/
def line (s : FlatRound) (pass : ℕ) (p1 p2 : Coord) (radius : ℚ)
    (col : Colour) : FlatRound :=
  if p1 = p2 then
    s.circle pass ⟨p1 - coordUniform (f2i radius), sizeUniform (f2u (radius * 2))⟩
      radius col
  else
    s.add_vertices pass (lineVertices (Vec2.ofCoord p1) (Vec2.ofCoord p2) radius col.toRgb)

/-- The sixteen triangles of rounded_frame (flat_round.rs lines 303-371),
parameterised by outer corners `aa bb`, sanitised inner corners `cc dd`,
the already-clamped inner radius and the converted colour. -/
def frameVertices (aa bb cc dd : Vec2) (inner : ℚ) (col : Rgb) : List Vertex :=
  let ab : Vec2 := ⟨aa.x, bb.y⟩
  let ba : Vec2 := ⟨bb.x, aa.y⟩
  let cd : Vec2 := ⟨cc.x, dd.y⟩
  let dc : Vec2 := ⟨dd.x, cc.y⟩
  let n0 := Vec2.splat 0
  let nb := (bb - aa).sign
  let na := -nb
  let nab : Vec2 := ⟨na.x, nb.y⟩
  let nba : Vec2 := ⟨nb.x, na.y⟩
  let na0 : Vec2 := ⟨na.x, 0⟩
  let nb0 : Vec2 := ⟨nb.x, 0⟩
  let n0a : Vec2 := ⟨0, na.y⟩
  let n0b : Vec2 := ⟨0, nb.y⟩
  let paa := na / (aa - cc) * OFFSET
  let pab := nab / (ab - cd) * OFFSET
  let pba := nba / (ba - dc) * OFFSET
  let pbb := nb / (bb - dd) * OFFSET
  let vab : Vertex := ⟨ab, col, inner, nab, pab⟩
  let vba : Vertex := ⟨ba, col, inner, nba, pba⟩
  let vcd : Vertex := ⟨cd, col, inner, n0, pab⟩
  let vdc : Vertex := ⟨dc, col, inner, n0, pba⟩
  let vac : Vertex := ⟨⟨aa.x, cc.y⟩, col, inner, na0, paa⟩
  let vad : Vertex := ⟨⟨aa.x, dd.y⟩, col, inner, na0, pab⟩
  let vbc : Vertex := ⟨⟨bb.x, cc.y⟩, col, inner, nb0, pba⟩
  let vbd : Vertex := ⟨⟨bb.x, dd.y⟩, col, inner, nb0, pbb⟩
  let vca : Vertex := ⟨⟨cc.x, aa.y⟩, col, inner, n0a, paa⟩
  let vcb : Vertex := ⟨⟨cc.x, bb.y⟩, col, inner, n0b, pab⟩
  let vda : Vertex := ⟨⟨dd.x, aa.y⟩, col, inner, n0a, pba⟩
  let vdb : Vertex := ⟨⟨dd.x, bb.y⟩, col, inner, n0b, pbb⟩
  let vaa : Vertex := ⟨aa, col, inner, na, paa⟩
  let vbb : Vertex := ⟨bb, col, inner, nb, pbb⟩
  let vcc : Vertex := ⟨cc, col, inner, n0, paa⟩
  let vdd : Vertex := ⟨dd, col, inner, n0, pbb⟩
  [vba, vdc, vda,
   vda, vdc, vca,
   vdc, vcc, vca,
   vca, vcc, vaa,
   vaa, vcc, vac,
   vac, vcc, vcd,
   vac, vcd, vad,
   vad, vcd, vab,
   vab, vcd, vcb,
   vcb, vcd, vdd,
   vcb, vdd, vdb,
   vdb, vdd, vbb,
   vbb, vdd, vbd,
   vbd, vdd, vdc,
   vbd, vdc, vbc,
   vbc, vdc, vba]

/-- rounded_frame (flat_round.rs lines 274-372): a frame between `outer` and
`inner`; zero/negative outer draws nothing; a mis-nested inner corner is
reset to the corresponding outer corner, and an inverted inner collapses
to its min corner. -/
def rounded_frame (s : FlatRound) (pass : ℕ) (outer inner : Rect)
    (inner_radius : ℚ) (col : Colour) : FlatRound :=
  let aa := Vec2.ofCoord outer.pos
  let bb := aa + Vec2.ofSize outer.size
  let cc := Vec2.ofCoord inner.pos
  let dd := cc + Vec2.ofSize inner.size
  if ¬ aa.lt bb then s
  else
    let cc := if ¬ aa.le cc ∨ ¬ cc.le bb then aa else cc
    let dd := if ¬ aa.le dd ∨ ¬ dd.le bb then bb else dd
    let dd := if ¬ cc.le dd then cc else dd
    s.add_vertices pass (frameVertices aa bb cc dd (clampUnit inner_radius) col.toRgb)

/-- Queued vertex list of one pass; an out-of-range pass holds nothing. -/
def vlist (s : FlatRound) (pass : ℕ) : List Vertex := s.passes.getD pass []

/-- Queued vertex count of one pass. -/
def vcount (s : FlatRound) (pass : ℕ) : ℕ := (s.vlist pass).length

end FlatRound

/-- Load operation of a hardware render pass (wgpu::LoadOp). -/
inductive LoadOp where
  | clear
  | load
deriving DecidableEq, Repr

/-- The sub-pipelines the orchestrator draws inside each region pass
(draw_pipe.rs lines 102-105). -/
inductive SubPipe where
  | shadedSquare
  | shadedRound
  | custom
  | flatRound
deriving DecidableEq, Repr

/-- One recorded GPU command of the orchestrator's render
(draw_pipe.rs lines 73-121): either a region render pass — with its load
operation, scissor rectangle and the ordered sub-pipeline draws issued
inside it — or the final glyph (text) pass. -/
inductive Event where
  | pass (loadOp : LoadOp) (scissor : Rect) (draws : List SubPipe)
  | text
deriving DecidableEq, Repr

/-- The fixed sub-pipeline draw order inside one region pass
(draw_pipe.rs lines 102-105). -/
def drawOrder : List SubPipe :=
  [SubPipe.shadedSquare, SubPipe.shadedRound, SubPipe.custom, SubPipe.flatRound]

/-- DrawPipe state (draw/mod.rs lines 50-57): the clip-region list and the
rounded-shape tessellator.  The shaded pipelines, the custom pipe and the
glyph brush hold only their own queued geometry (their sources are outside
this module); the orchestrator-level claims touch none of their state, so
only their draw calls are recorded in the render trace. -/
structure DrawPipe where
  clip_regions : List Rect
  flat_round : FlatRound
deriving DecidableEq, Repr

namespace DrawPipe

/-- add_clip_region (draw_pipe.rs lines 130-134): push the rect, return the
pass index it received (the list length before the push). -/
def add_clip_region (s : DrawPipe) (region : Rect) : DrawPipe × ℕ :=
  ({ s with clip_regions := s.clip_regions ++ [region] }, s.clip_regions.length)

/-- resize (draw_pipe.rs lines 61-70): overwrite region 0's size with the new
surface size and propagate the resize to the sub-pipelines (whose modelled
state is unaffected: only their GPU-side scale uniforms change). -/
def resize (s : DrawPipe) (size : Size) : DrawPipe :=
  { s with clip_regions := s.clip_regions.modifyHead fun r => { r with size := size } }

/-- The region loop of render (draw_pipe.rs lines 84-109): one render pass
per clip region, `loadOp` for the current pass and `LoadOp.load` for all
later ones, each scissored to its region and drawing the four sub-pipelines
in the fixed order; `flat_round.render` clears that pass's queue. -/
def renderLoop (loadOp : LoadOp) (pass : ℕ) (regions : List Rect)
    (fr : FlatRound) : List Event × FlatRound :=
  match regions with
  | [] => ([], fr)
  | r :: rs =>
    let out := renderLoop LoadOp.load (pass + 1) rs (fr.render pass)
    (Event.pass loadOp r drawOrder :: out.1, out.2)

/-- render (draw_pipe.rs lines 73-121): the region loop starting with a
Clear load-op, then the glyph (text) pass, then the clip-region list is
truncated back to just region 0. -/
def render (s : DrawPipe) : List Event × DrawPipe :=
  let out := renderLoop LoadOp.clear 0 s.clip_regions s.flat_round
  (out.1 ++ [Event.text],
   { clip_regions := s.clip_regions.take 1, flat_round := out.2 })

end DrawPipe

/-! Helper lemmas. -/

@[simp]
theorem Vec2.add_def (a b : Vec2) : a + b = ⟨a.x + b.x, a.y + b.y⟩ := rfl

@[simp]
theorem Vec2.sub_def (a b : Vec2) : a - b = ⟨a.x - b.x, a.y - b.y⟩ := rfl

@[simp]
theorem Vec2.neg_def (a : Vec2) : -a = ⟨-a.x, -a.y⟩ := rfl

theorem clampUnit_idem (q : ℚ) : clampUnit (clampUnit q) = clampUnit q := by
  unfold clampUnit
  rw [max_eq_left (le_min (le_max_right q 0) (by norm_num)),
    min_eq_left (min_le_right _ _)]

theorem getD_append_replicate_nil {α : Type} (L : List (List α)) (n j : ℕ) :
    (L ++ List.replicate n ([] : List α)).getD j [] = L.getD j [] := by
  simp only [List.getD_eq_getElem?_getD]
  by_cases h : j < L.length
  · rw [List.getElem?_append_left h]
  · push_neg at h
    rw [List.getElem?_append_right h, List.getElem?_eq_none h, List.getElem?_replicate]
    split <;> simp

theorem FlatRound.vlist_add_vertices (s : FlatRound) (p j : ℕ) (l : List Vertex) :
    (s.add_vertices p l).vlist j = if j = p then s.vlist p ++ l else s.vlist j := by
  unfold FlatRound.add_vertices FlatRound.vlist
  by_cases hg : s.passes.length ≤ p
  · rw [if_pos hg]
    have hlen : p < (s.passes ++ List.replicate (p + 8 - s.passes.length)
        ([] : List Vertex)).length := by
      simp only [List.length_append, List.length_replicate]
      omega
    by_cases hj : j = p
    · subst hj
      simp only [List.getD_eq_getElem?_getD, List.getElem?_set_self hlen, Option.getD_some,
        if_pos rfl]
      rw [← List.getD_eq_getElem?_getD, ← List.getD_eq_getElem?_getD,
        getD_append_replicate_nil]
      simp
    · simp only [List.getD_eq_getElem?_getD, List.getElem?_set_ne (Ne.symm hj), if_neg hj]
      rw [← List.getD_eq_getElem?_getD, getD_append_replicate_nil]
      simp [List.getD_eq_getElem?_getD]
  · rw [if_neg hg]
    push_neg at hg
    by_cases hj : j = p
    · subst hj
      simp only [List.getD_eq_getElem?_getD, List.getElem?_set_self hg, Option.getD_some,
        if_pos rfl]
      simp
    · simp only [List.getD_eq_getElem?_getD, List.getElem?_set_ne (Ne.symm hj), if_neg hj]

theorem FlatRound.vcount_add_vertices (s : FlatRound) (p : ℕ) (l : List Vertex) :
    (s.add_vertices p l).vcount p = s.vcount p + l.length := by
  simp [FlatRound.vcount, FlatRound.vlist_add_vertices]

theorem FlatRound.length_lineVertices (q1 q2 : Vec2) (r : ℚ) (c : Rgb) :
    (FlatRound.lineVertices q1 q2 r c).length = 30 := rfl

theorem FlatRound.length_circleVertices (aa bb : Vec2) (inner : ℚ) (c : Rgb) :
    (FlatRound.circleVertices aa bb inner c).length = 12 := rfl

theorem FlatRound.length_frameVertices (aa bb cc dd : Vec2) (inner : ℚ) (c : Rgb) :
    (FlatRound.frameVertices aa bb cc dd inner c).length = 48 := rfl

theorem DrawPipe.renderLoop_fst_length (lo : LoadOp) (i : ℕ) (rs : List Rect)
    (fr : FlatRound) : (DrawPipe.renderLoop lo i rs fr).1.length = rs.length := by
  induction rs generalizing lo i fr with
  | nil => rfl
  | cons r rs ih => simp [DrawPipe.renderLoop, ih]

theorem DrawPipe.renderLoop_fst_getElem? (lo : LoadOp) (i k : ℕ) (rs : List Rect)
    (fr : FlatRound) :
    (DrawPipe.renderLoop lo i rs fr).1[k]? =
      (rs[k]?).map fun r =>
        Event.pass (if k = 0 then lo else LoadOp.load) r drawOrder := by
  induction rs generalizing lo i k fr with
  | nil => simp [DrawPipe.renderLoop]
  | cons r rs ih =>
    cases k with
    | zero => simp [DrawPipe.renderLoop]
    | succ k => simp [DrawPipe.renderLoop, ih]

theorem FlatRound.vlist_render_self (s : FlatRound) (p : ℕ) :
    (s.render p).vlist p = [] := by
  unfold FlatRound.render FlatRound.vlist
  by_cases h : s.passes.length ≤ p
  · rw [if_pos h]
    simp [List.getD_eq_getElem?_getD, List.getElem?_eq_none h]
  · rw [if_neg h]
    push_neg at h
    simp [List.getD_eq_getElem?_getD, List.getElem?_set_self h]

theorem FlatRound.render_out_of_range (s : FlatRound) (p : ℕ)
    (h : s.passes.length ≤ p) : s.render p = s := by
  unfold FlatRound.render
  rw [if_pos h]

/-! Claim theorems. -/

/-- C4: for distinct endpoints and positive radius, `line` enqueues exactly
10 triangles (30 vertices) for the given pass, independent of segment length
and radius. -/
theorem C4_line_triangle_count (s : FlatRound) (pass : ℕ) (p1 p2 : Coord)
    (radius : ℚ) (col : Colour) (hne : p1 ≠ p2) (hr : 0 < radius) :
    (s.line pass p1 p2 radius col).vcount pass = s.vcount pass + 30 := by
  simp only [FlatRound.line]
  rw [if_neg hne, FlatRound.vcount_add_vertices, FlatRound.length_lineVertices]

theorem C4_witness :
    (((0, 0) : Coord) ≠ ((3, 4) : Coord)) ∧ ((0:ℚ) < 1)
    ∧ ((FlatRound.mk []).line 0 (0, 0) (3, 4) 1 ⟨0, 0, 0, 1⟩).vcount 0
        = (FlatRound.mk []).vcount 0 + 30 :=
  ⟨by decide, by norm_num,
    C4_line_triangle_count ⟨[]⟩ 0 (0, 0) (3, 4) 1 ⟨0, 0, 0, 1⟩ (by decide) (by norm_num)⟩

/-- C5: a line with both endpoints equal delegates to `circle` on the
bounding square of side 2·radius centred on the point (positions produced
with Rust's saturating float-to-int casts), with `inner_radius` equal to the
line's radius; the enqueued vertex/triangle sequence is identical. -/
theorem C5_degenerate_line_is_circle (s : FlatRound) (pass : ℕ) (p1 : Coord)
    (radius : ℚ) (col : Colour) :
    s.line pass p1 p1 radius col
      = s.circle pass ⟨p1 - coordUniform (f2i radius), sizeUniform (f2u (radius * 2))⟩
          radius col := by
  simp only [FlatRound.line]
  rw [if_pos trivial]

/-- C6: an `inner_radius` outside `[0, 1]` produces output identical to the
call with the value clamped into `[0, 1]`, for both `circle` and
`rounded_frame`. -/
theorem C6_radius_clamped (s t : FlatRound) (pass : ℕ) (rect outer inner : Rect)
    (ir : ℚ) (col : Colour) (h : ir < 0 ∨ 1 < ir) :
    s.circle pass rect ir col = s.circle pass rect (clampUnit ir) col
    ∧ t.rounded_frame pass outer inner ir col
        = t.rounded_frame pass outer inner (clampUnit ir) col := by
  constructor
  · simp only [FlatRound.circle, clampUnit_idem]
  · simp only [FlatRound.rounded_frame, clampUnit_idem]

theorem C6_witness :
    (((3:ℚ) < 0 ∨ (1:ℚ) < 3))
    ∧ ((FlatRound.mk []).circle 0 ⟨(0, 0), (4, 4)⟩ 3 ⟨0, 0, 0, 1⟩
        = (FlatRound.mk []).circle 0 ⟨(0, 0), (4, 4)⟩ (clampUnit 3) ⟨0, 0, 0, 1⟩
      ∧ (FlatRound.mk []).rounded_frame 0 ⟨(0, 0), (8, 8)⟩ ⟨(2, 2), (4, 4)⟩ 3 ⟨0, 0, 0, 1⟩
        = (FlatRound.mk []).rounded_frame 0 ⟨(0, 0), (8, 8)⟩ ⟨(2, 2), (4, 4)⟩
            (clampUnit 3) ⟨0, 0, 0, 1⟩) :=
  ⟨Or.inr (by norm_num),
    C6_radius_clamped ⟨[]⟩ ⟨[]⟩ 0 ⟨(0, 0), (4, 4)⟩ ⟨(0, 0), (8, 8)⟩ ⟨(2, 2), (4, 4)⟩ 3
      ⟨0, 0, 0, 1⟩ (Or.inr (by norm_num))⟩

/-- C7: `circle` enqueues exactly 4 triangles (12 vertices) for a rect of
positive width and height, and exactly nothing — silently — when either
dimension is zero (a u32 size cannot be negative). -/
theorem C7_circle_counts (s : FlatRound) (pass : ℕ) (rect : Rect) (ir : ℚ)
    (col : Colour) :
    (0 < rect.size.1 ∧ 0 < rect.size.2 →
      (s.circle pass rect ir col).vcount pass = s.vcount pass + 12)
    ∧ (rect.size.1 = 0 ∨ rect.size.2 = 0 → s.circle pass rect ir col = s) := by
  constructor
  · rintro ⟨hw, hh⟩
    have h1 : (0:ℚ) < rect.size.1 := by exact_mod_cast hw
    have h2 : (0:ℚ) < rect.size.2 := by exact_mod_cast hh
    have hlt : (Vec2.ofCoord rect.pos).lt
        (Vec2.ofCoord rect.pos + Vec2.ofSize rect.size) := by
      simp only [Vec2.lt, Vec2.add_def, Vec2.ofCoord, Vec2.ofSize]
      constructor <;> linarith
    simp only [FlatRound.circle]
    rw [if_neg (not_not_intro hlt), FlatRound.vcount_add_vertices,
      FlatRound.length_circleVertices]
  · intro h
    have hnlt : ¬ (Vec2.ofCoord rect.pos).lt
        (Vec2.ofCoord rect.pos + Vec2.ofSize rect.size) := by
      simp only [Vec2.lt, Vec2.add_def, Vec2.ofCoord, Vec2.ofSize, not_and_or, not_lt]
      rcases h with h | h
      · left; rw [h]; simp
      · right; rw [h]; simp
    simp only [FlatRound.circle]
    rw [if_pos hnlt]

theorem C7_witness :
    ((0 < 4 ∧ 0 < 4) ∧
      ((FlatRound.mk []).circle 0 ⟨(1, 1), (4, 4)⟩ 0 ⟨0, 0, 0, 1⟩).vcount 0
        = (FlatRound.mk []).vcount 0 + 12)
    ∧ ((4 = 0 ∨ 0 = 0) ∧
      (FlatRound.mk []).circle 0 ⟨(1, 1), (4, 0)⟩ 0 ⟨0, 0, 0, 1⟩ = FlatRound.mk []) :=
  ⟨⟨⟨by norm_num, by norm_num⟩,
    (C7_circle_counts ⟨[]⟩ 0 ⟨(1, 1), (4, 4)⟩ 0 ⟨0, 0, 0, 1⟩).1 ⟨by norm_num, by norm_num⟩⟩,
   ⟨Or.inr rfl,
    (C7_circle_counts ⟨[]⟩ 0 ⟨(1, 1), (4, 0)⟩ 0 ⟨0, 0, 0, 1⟩).2 (Or.inr rfl)⟩⟩

/-- C8: after the tessellator's `render(pass)` the queued-vertex count for
that pass is exactly zero, and a pass index at or beyond the pass-list
length makes `render` a silent no-op. -/
theorem C8_render_clears_pass (s : FlatRound) (pass : ℕ) :
    (s.render pass).vcount pass = 0
    ∧ (s.passes.length ≤ pass → s.render pass = s) := by
  refine ⟨?_, fun h => FlatRound.render_out_of_range s pass h⟩
  simp [FlatRound.vcount, FlatRound.vlist_render_self]

theorem C8_witness :
    ((FlatRound.mk [[], []]).render 5).vcount 5 = 0
    ∧ (FlatRound.mk [[], []]).render 5 = FlatRound.mk [[], []] :=
  ⟨(C8_render_clears_pass ⟨[[], []]⟩ 5).1,
   (C8_render_clears_pass ⟨[[], []]⟩ 5).2 (by norm_num)⟩

/-- C10: every tessellator drawing call targeting pass `i` leaves the queued
vertex list of every other pass `j ≠ i` unchanged. -/
theorem C10_other_passes_untouched (s : FlatRound) (i j : ℕ) (p1 p2 : Coord)
    (radius : ℚ) (rect outer inner : Rect) (ir : ℚ) (col : Colour) (hne : j ≠ i) :
    (s.line i p1 p2 radius col).vlist j = s.vlist j
    ∧ (s.circle i rect ir col).vlist j = s.vlist j
    ∧ (s.rounded_frame i outer inner ir col).vlist j = s.vlist j := by
  have hc : ∀ (t : FlatRound) (rc : Rect) (q : ℚ),
      (t.circle i rc q col).vlist j = t.vlist j := by
    intro t rc q
    simp only [FlatRound.circle]
    split
    · rfl
    · rw [FlatRound.vlist_add_vertices, if_neg hne]
  refine ⟨?_, hc s rect ir, ?_⟩
  · simp only [FlatRound.line]
    split
    · exact hc s _ _
    · rw [FlatRound.vlist_add_vertices, if_neg hne]
  · simp only [FlatRound.rounded_frame]
    split
    · rfl
    · rw [FlatRound.vlist_add_vertices, if_neg hne]

theorem C10_witness :
    ((1 : ℕ) ≠ 0)
    ∧ (((FlatRound.mk [[], []]).line 0 (0, 0) (3, 4) 1 ⟨0, 0, 0, 1⟩).vlist 1
        = (FlatRound.mk [[], []]).vlist 1
      ∧ ((FlatRound.mk [[], []]).circle 0 ⟨(0, 0), (4, 4)⟩ 0 ⟨0, 0, 0, 1⟩).vlist 1
        = (FlatRound.mk [[], []]).vlist 1
      ∧ ((FlatRound.mk [[], []]).rounded_frame 0 ⟨(0, 0), (8, 8)⟩ ⟨(2, 2), (4, 4)⟩ 0
          ⟨0, 0, 0, 1⟩).vlist 1 = (FlatRound.mk [[], []]).vlist 1) :=
  ⟨by norm_num,
    C10_other_passes_untouched ⟨[[], []]⟩ 0 1 (0, 0) (3, 4) 1 ⟨(0, 0), (4, 4)⟩
      ⟨(0, 0), (8, 8)⟩ ⟨(2, 2), (4, 4)⟩ 0 ⟨0, 0, 0, 1⟩ (by norm_num)⟩

theorem FlatRound.outer_lt (outer : Rect) (hw : 0 < outer.size.1)
    (hh : 0 < outer.size.2) :
    (Vec2.ofCoord outer.pos).lt
      (Vec2.ofCoord outer.pos + Vec2.ofSize outer.size) := by
  have h1 : (0:ℚ) < outer.size.1 := by exact_mod_cast hw
  have h2 : (0:ℚ) < outer.size.2 := by exact_mod_cast hh
  simp only [Vec2.lt, Vec2.add_def, Vec2.ofCoord, Vec2.ofSize]
  constructor <;> linarith

theorem FlatRound.rounded_frame_strictOutside (s : FlatRound) (pass : ℕ)
    (outer inner : Rect) (ir : ℚ) (col : Colour)
    (hw : 0 < outer.size.1) (hh : 0 < outer.size.2)
    (hsep : (inner.pos.1 + (inner.size.1 : ℤ) < outer.pos.1)
      ∨ (outer.pos.1 + (outer.size.1 : ℤ) < inner.pos.1)
      ∨ (inner.pos.2 + (inner.size.2 : ℤ) < outer.pos.2)
      ∨ (outer.pos.2 + (outer.size.2 : ℤ) < inner.pos.2)) :
    s.rounded_frame pass outer inner ir col
      = s.add_vertices pass (FlatRound.frameVertices
          (Vec2.ofCoord outer.pos) (Vec2.ofCoord outer.pos + Vec2.ofSize outer.size)
          (Vec2.ofCoord outer.pos) (Vec2.ofCoord outer.pos + Vec2.ofSize outer.size)
          (clampUnit ir) col.toRgb) := by
  have hszx : (0:ℚ) ≤ (inner.size.1 : ℚ) := Nat.cast_nonneg _
  have hszy : (0:ℚ) ≤ (inner.size.2 : ℚ) := Nat.cast_nonneg _
  have hlt := FlatRound.outer_lt outer hw hh
  have hle : (Vec2.ofCoord outer.pos).le
      (Vec2.ofCoord outer.pos + Vec2.ofSize outer.size) :=
    ⟨le_of_lt hlt.1, le_of_lt hlt.2⟩
  have hcc : ¬ (Vec2.ofCoord outer.pos).le (Vec2.ofCoord inner.pos)
      ∨ ¬ (Vec2.ofCoord inner.pos).le
          (Vec2.ofCoord outer.pos + Vec2.ofSize outer.size) := by
    simp only [Vec2.le, Vec2.add_def, Vec2.ofCoord, Vec2.ofSize, not_and_or, not_le]
    rcases hsep with h | h | h | h
    · have hq : (inner.pos.1:ℚ) + (inner.size.1:ℚ) < (outer.pos.1:ℚ) := by
        exact_mod_cast h
      exact Or.inl (Or.inl (by linarith))
    · have hq : (outer.pos.1:ℚ) + (outer.size.1:ℚ) < (inner.pos.1:ℚ) := by
        exact_mod_cast h
      exact Or.inr (Or.inl (by linarith))
    · have hq : (inner.pos.2:ℚ) + (inner.size.2:ℚ) < (outer.pos.2:ℚ) := by
        exact_mod_cast h
      exact Or.inl (Or.inr (by linarith))
    · have hq : (outer.pos.2:ℚ) + (outer.size.2:ℚ) < (inner.pos.2:ℚ) := by
        exact_mod_cast h
      exact Or.inr (Or.inr (by linarith))
  have hdd : ¬ (Vec2.ofCoord outer.pos).le
        (Vec2.ofCoord inner.pos + Vec2.ofSize inner.size)
      ∨ ¬ (Vec2.ofCoord inner.pos + Vec2.ofSize inner.size).le
          (Vec2.ofCoord outer.pos + Vec2.ofSize outer.size) := by
    simp only [Vec2.le, Vec2.add_def, Vec2.ofCoord, Vec2.ofSize, not_and_or, not_le]
    rcases hsep with h | h | h | h
    · have hq : (inner.pos.1:ℚ) + (inner.size.1:ℚ) < (outer.pos.1:ℚ) := by
        exact_mod_cast h
      exact Or.inl (Or.inl (by linarith))
    · have hq : (outer.pos.1:ℚ) + (outer.size.1:ℚ) < (inner.pos.1:ℚ) := by
        exact_mod_cast h
      exact Or.inr (Or.inl (by linarith))
    · have hq : (inner.pos.2:ℚ) + (inner.size.2:ℚ) < (outer.pos.2:ℚ) := by
        exact_mod_cast h
      exact Or.inl (Or.inr (by linarith))
    · have hq : (outer.pos.2:ℚ) + (outer.size.2:ℚ) < (inner.pos.2:ℚ) := by
        exact_mod_cast h
      exact Or.inr (Or.inr (by linarith))
  simp only [FlatRound.rounded_frame]
  rw [if_neg (not_not_intro hlt), if_pos hcc, if_pos hdd,
    if_neg (not_not_intro hle)]

theorem FlatRound.rounded_frame_outer_outer (s : FlatRound) (pass : ℕ)
    (outer : Rect) (ir : ℚ) (col : Colour)
    (hw : 0 < outer.size.1) (hh : 0 < outer.size.2) :
    s.rounded_frame pass outer outer ir col
      = s.add_vertices pass (FlatRound.frameVertices
          (Vec2.ofCoord outer.pos) (Vec2.ofCoord outer.pos + Vec2.ofSize outer.size)
          (Vec2.ofCoord outer.pos) (Vec2.ofCoord outer.pos + Vec2.ofSize outer.size)
          (clampUnit ir) col.toRgb) := by
  have hlt := FlatRound.outer_lt outer hw hh
  have hle : (Vec2.ofCoord outer.pos).le
      (Vec2.ofCoord outer.pos + Vec2.ofSize outer.size) :=
    ⟨le_of_lt hlt.1, le_of_lt hlt.2⟩
  simp only [FlatRound.rounded_frame]
  rw [if_neg (not_not_intro hlt), ite_self, ite_self,
    if_neg (not_not_intro hle)]

theorem FlatRound.rounded_frame_zero_corner (s : FlatRound) (pass : ℕ)
    (outer : Rect) (ir : ℚ) (col : Colour)
    (hw : 0 < outer.size.1) (hh : 0 < outer.size.2) :
    s.rounded_frame pass outer ⟨outer.pos, (0, 0)⟩ ir col
      = s.add_vertices pass (FlatRound.frameVertices
          (Vec2.ofCoord outer.pos) (Vec2.ofCoord outer.pos + Vec2.ofSize outer.size)
          (Vec2.ofCoord outer.pos)
          (Vec2.ofCoord outer.pos + Vec2.ofSize ((0, 0) : Size))
          (clampUnit ir) col.toRgb) := by
  have h1 : (0:ℚ) ≤ (outer.size.1 : ℚ) := Nat.cast_nonneg _
  have h2 : (0:ℚ) ≤ (outer.size.2 : ℚ) := Nat.cast_nonneg _
  have hlt := FlatRound.outer_lt outer hw hh
  have hle : (Vec2.ofCoord outer.pos).le
      (Vec2.ofCoord outer.pos + Vec2.ofSize outer.size) :=
    ⟨le_of_lt hlt.1, le_of_lt hlt.2⟩
  have hdd0 : (Vec2.ofCoord outer.pos).le
      (Vec2.ofCoord outer.pos + Vec2.ofSize ((0, 0) : Size)) := by
    simp [Vec2.le, Vec2.add_def, Vec2.ofCoord, Vec2.ofSize]
  have hddb : (Vec2.ofCoord outer.pos + Vec2.ofSize ((0, 0) : Size)).le
      (Vec2.ofCoord outer.pos + Vec2.ofSize outer.size) := by
    simp only [Vec2.le, Vec2.add_def, Vec2.ofCoord, Vec2.ofSize]
    constructor <;> simp
  simp only [FlatRound.rounded_frame]
  rw [if_neg (not_not_intro hlt)]
  rw [if_neg (show ¬ (¬ (Vec2.ofCoord outer.pos).le (Vec2.ofCoord outer.pos)
      ∨ ¬ (Vec2.ofCoord outer.pos).le
          (Vec2.ofCoord outer.pos + Vec2.ofSize outer.size)) by
    rw [not_or]
    exact ⟨not_not_intro ⟨le_refl _, le_refl _⟩, not_not_intro hle⟩)]
  rw [if_neg (show ¬ (¬ (Vec2.ofCoord outer.pos).le
        (Vec2.ofCoord outer.pos + Vec2.ofSize ((0, 0) : Size))
      ∨ ¬ (Vec2.ofCoord outer.pos + Vec2.ofSize ((0, 0) : Size)).le
          (Vec2.ofCoord outer.pos + Vec2.ofSize outer.size)) by
    rw [not_or]
    exact ⟨not_not_intro hdd0, not_not_intro hddb⟩)]
  rw [if_neg (not_not_intro hdd0)]

/-- C1 counterexample: with outer = 10×10 at the origin and inner = 5×5 at
(20, 20) — entirely outside outer — `rounded_frame` does not behave as if
inner had been collapsed to a zero-area rect at outer's top-left corner:
the two calls enqueue different vertices (the code resets inner's min corner
to outer's min corner and inner's max corner to outer's max corner). -/
theorem C1_counterexample :
    FlatRound.rounded_frame ⟨[]⟩ 0 ⟨(0, 0), (10, 10)⟩ ⟨(20, 20), (5, 5)⟩ 0 ⟨0, 0, 0, 1⟩
      ≠ FlatRound.rounded_frame ⟨[]⟩ 0 ⟨(0, 0), (10, 10)⟩ ⟨(0, 0), (0, 0)⟩ 0
          ⟨0, 0, 0, 1⟩ := by
  rw [FlatRound.rounded_frame_strictOutside ⟨[]⟩ 0 ⟨(0, 0), (10, 10)⟩ ⟨(20, 20), (5, 5)⟩
      0 ⟨0, 0, 0, 1⟩ (by norm_num) (by norm_num) (Or.inr (Or.inl (by norm_num))),
    show (⟨(0, 0), (0, 0)⟩ : Rect) = ⟨(⟨(0, 0), (10, 10)⟩ : Rect).pos, (0, 0)⟩ from rfl,
    FlatRound.rounded_frame_zero_corner ⟨[]⟩ 0 ⟨(0, 0), (10, 10)⟩ 0 ⟨0, 0, 0, 1⟩
      (by norm_num) (by norm_num)]
  intro h
  have h2 := congrArg (fun t => FlatRound.vlist t 0) h
  simp only [FlatRound.vlist_add_vertices, reduceIte] at h2
  have hv : FlatRound.vlist ⟨[]⟩ 0 = [] := rfl
  rw [hv, List.nil_append, List.nil_append] at h2
  have h3 := congrArg (fun l => l[29]?) h2
  simp only [FlatRound.frameVertices, List.getElem?_cons_succ,
    List.getElem?_cons_zero] at h3
  norm_num [Vertex.mk.injEq, Vec2.mk.injEq, Vec2.add_def, Vec2.ofCoord,
    Vec2.ofSize] at h3

/-- C1 amended: for an outer rect of positive width and height and an inner
rect strictly separated from outer along some axis, `rounded_frame` silently
sanitises rather than erroring, but the sanitised inner is outer itself
(min corner reset to outer's min corner, max corner to outer's max corner,
a zero-width frame hugging outer's boundary) — not a zero-area rect at
outer's top-left corner — and exactly 16 triangles (48 vertices) are still
enqueued for the pass. -/
theorem C1_outside_inner_collapses_to_outer (s : FlatRound) (pass : ℕ)
    (outer inner : Rect) (ir : ℚ) (col : Colour)
    (hw : 0 < outer.size.1) (hh : 0 < outer.size.2)
    (hsep : (inner.pos.1 + (inner.size.1 : ℤ) < outer.pos.1)
      ∨ (outer.pos.1 + (outer.size.1 : ℤ) < inner.pos.1)
      ∨ (inner.pos.2 + (inner.size.2 : ℤ) < outer.pos.2)
      ∨ (outer.pos.2 + (outer.size.2 : ℤ) < inner.pos.2)) :
    s.rounded_frame pass outer inner ir col = s.rounded_frame pass outer outer ir col
    ∧ (s.rounded_frame pass outer inner ir col).vcount pass = s.vcount pass + 48 := by
  have key := FlatRound.rounded_frame_strictOutside s pass outer inner ir col hw hh hsep
  have keyR := FlatRound.rounded_frame_outer_outer s pass outer ir col hw hh
  refine ⟨key.trans keyR.symm, ?_⟩
  rw [key, FlatRound.vcount_add_vertices, FlatRound.length_frameVertices]

theorem C1_witness :
    ((0:ℕ) < 10) ∧ ((0:ℕ) < 10)
    ∧ ((0:ℤ) + (10:ℤ) < 20)
    ∧ (FlatRound.rounded_frame ⟨[]⟩ 0 ⟨(0, 0), (10, 10)⟩ ⟨(20, 20), (5, 5)⟩ 0 ⟨0, 0, 0, 1⟩
        = FlatRound.rounded_frame ⟨[]⟩ 0 ⟨(0, 0), (10, 10)⟩ ⟨(0, 0), (10, 10)⟩ 0
            ⟨0, 0, 0, 1⟩
      ∧ (FlatRound.rounded_frame ⟨[]⟩ 0 ⟨(0, 0), (10, 10)⟩ ⟨(20, 20), (5, 5)⟩ 0
          ⟨0, 0, 0, 1⟩).vcount 0 = (FlatRound.mk []).vcount 0 + 48) :=
  ⟨by norm_num, by norm_num, by norm_num,
    C1_outside_inner_collapses_to_outer ⟨[]⟩ 0 ⟨(0, 0), (10, 10)⟩ ⟨(20, 20), (5, 5)⟩ 0
      ⟨0, 0, 0, 1⟩ (by norm_num) (by norm_num) (Or.inr (Or.inl (by norm_num)))⟩

/-- C2: the orchestrator's `render` emits one render pass per clip region in
list order, each scissored to its region's rectangle, with load-op Clear on
the very first pass and Load on every later one; inside each pass the
sub-pipelines draw in the fixed order shaded-square, shaded-round, custom,
rounded tessellator, and the text pass comes once after all region passes. -/
theorem C2_render_pass_structure (s : DrawPipe) :
    (DrawPipe.render s).1.length = s.clip_regions.length + 1
    ∧ (∀ k r, s.clip_regions[k]? = some r →
        (DrawPipe.render s).1[k]? =
          some (Event.pass (if k = 0 then LoadOp.clear else LoadOp.load) r drawOrder))
    ∧ (DrawPipe.render s).1[s.clip_regions.length]? = some Event.text := by
  refine ⟨?_, ?_, ?_⟩
  · simp [DrawPipe.render, DrawPipe.renderLoop_fst_length]
  · intro k r hk
    have hklt : k < s.clip_regions.length :=
      (List.getElem?_eq_some_iff.mp hk).1
    simp only [DrawPipe.render]
    rw [List.getElem?_append_left
        (by rw [DrawPipe.renderLoop_fst_length]; exact hklt),
      DrawPipe.renderLoop_fst_getElem?, hk]
    rfl
  · simp only [DrawPipe.render]
    rw [List.getElem?_append_right (by simp [DrawPipe.renderLoop_fst_length]),
      DrawPipe.renderLoop_fst_length]
    simp

theorem C2_witness :
    ((DrawPipe.mk [⟨(0, 0), (64, 64)⟩, ⟨(0, 0), (10, 10)⟩] ⟨[]⟩).clip_regions[0]?
        = some ⟨(0, 0), (64, 64)⟩)
    ∧ ((DrawPipe.mk [⟨(0, 0), (64, 64)⟩, ⟨(0, 0), (10, 10)⟩] ⟨[]⟩).clip_regions[1]?
        = some ⟨(0, 0), (10, 10)⟩)
    ∧ (DrawPipe.render (DrawPipe.mk [⟨(0, 0), (64, 64)⟩, ⟨(0, 0), (10, 10)⟩] ⟨[]⟩)).1[0]?
        = some (Event.pass (if 0 = 0 then LoadOp.clear else LoadOp.load)
            ⟨(0, 0), (64, 64)⟩ drawOrder)
    ∧ (DrawPipe.render (DrawPipe.mk [⟨(0, 0), (64, 64)⟩, ⟨(0, 0), (10, 10)⟩] ⟨[]⟩)).1[1]?
        = some (Event.pass (if 1 = 0 then LoadOp.clear else LoadOp.load)
            ⟨(0, 0), (10, 10)⟩ drawOrder) :=
  ⟨rfl, rfl,
    (C2_render_pass_structure (DrawPipe.mk [⟨(0, 0), (64, 64)⟩, ⟨(0, 0), (10, 10)⟩]
      ⟨[]⟩)).2.1 0 ⟨(0, 0), (64, 64)⟩ rfl,
    (C2_render_pass_structure (DrawPipe.mk [⟨(0, 0), (64, 64)⟩, ⟨(0, 0), (10, 10)⟩]
      ⟨[]⟩)).2.1 1 ⟨(0, 0), (10, 10)⟩ rfl⟩

/-- C3: after a completed orchestrator render, the clip-region list has
length exactly 1, however many regions were appended during the frame; and
`add_clip_region` appends its rect and returns a handle equal to the list
length before insertion. -/
theorem C3_region_list_reset (s : DrawPipe) (region : Rect)
    (h : s.clip_regions ≠ []) :
    (DrawPipe.render s).2.clip_regions.length = 1
    ∧ (DrawPipe.add_clip_region s region).2 = s.clip_regions.length
    ∧ (DrawPipe.add_clip_region s region).1.clip_regions
        = s.clip_regions ++ [region] := by
  refine ⟨?_, rfl, rfl⟩
  have hp : 0 < s.clip_regions.length := List.length_pos.mpr h
  simp only [DrawPipe.render]
  rw [List.length_take]
  omega

theorem C3_witness :
    ((DrawPipe.mk [⟨(0, 0), (64, 64)⟩, ⟨(1, 1), (2, 2)⟩, ⟨(3, 3), (4, 4)⟩]
        ⟨[]⟩).clip_regions ≠ [])
    ∧ ((DrawPipe.render (DrawPipe.mk [⟨(0, 0), (64, 64)⟩, ⟨(1, 1), (2, 2)⟩,
          ⟨(3, 3), (4, 4)⟩] ⟨[]⟩)).2.clip_regions.length = 1
      ∧ (DrawPipe.add_clip_region (DrawPipe.mk [⟨(0, 0), (64, 64)⟩, ⟨(1, 1), (2, 2)⟩,
          ⟨(3, 3), (4, 4)⟩] ⟨[]⟩) ⟨(5, 5), (6, 6)⟩).2 = 3
      ∧ (DrawPipe.add_clip_region (DrawPipe.mk [⟨(0, 0), (64, 64)⟩, ⟨(1, 1), (2, 2)⟩,
          ⟨(3, 3), (4, 4)⟩] ⟨[]⟩) ⟨(5, 5), (6, 6)⟩).1.clip_regions
        = [⟨(0, 0), (64, 64)⟩, ⟨(1, 1), (2, 2)⟩, ⟨(3, 3), (4, 4)⟩, ⟨(5, 5), (6, 6)⟩]) := by
  refine ⟨by simp, ?_⟩
  have h := C3_region_list_reset (DrawPipe.mk [⟨(0, 0), (64, 64)⟩, ⟨(1, 1), (2, 2)⟩,
    ⟨(3, 3), (4, 4)⟩] ⟨[]⟩) ⟨(5, 5), (6, 6)⟩ (by simp)
  exact ⟨h.1, h.2.1, h.2.2⟩

/-- C9: `resize(new_size)` updates clip region 0's rectangle to have size
equal to the new surface size with its position unchanged, preserving the
region-0 full-window invariant. -/
theorem C9_resize_sets_region0 (s : DrawPipe) (sz : Size) (r : Rect)
    (rest : List Rect) (h : s.clip_regions = r :: rest) :
    (s.resize sz).clip_regions = { pos := r.pos, size := sz } :: rest := by
  simp [DrawPipe.resize, h]

theorem C9_witness :
    ((DrawPipe.mk [⟨(0, 0), (64, 64)⟩, ⟨(1, 1), (2, 2)⟩] ⟨[]⟩).clip_regions
        = ⟨(0, 0), (64, 64)⟩ :: [⟨(1, 1), (2, 2)⟩])
    ∧ ((DrawPipe.mk [⟨(0, 0), (64, 64)⟩, ⟨(1, 1), (2, 2)⟩] ⟨[]⟩).resize
          (128, 96)).clip_regions
        = { pos := (0, 0), size := (128, 96) } :: [⟨(1, 1), (2, 2)⟩] :=
  ⟨rfl,
    C9_resize_sets_region0 (DrawPipe.mk [⟨(0, 0), (64, 64)⟩, ⟨(1, 1), (2, 2)⟩] ⟨[]⟩)
      (128, 96) ⟨(0, 0), (64, 64)⟩ [⟨(1, 1), (2, 2)⟩] rfl⟩

end KasDraw
